/-
Verification of the relevance pipeline of the persona-driven document
intelligence system (content_extractor.py, persona_analyzer.py,
ranking_engine.py, utils.py).

Python text is modelled as `List Char` (`Str`); Python floats appearing in
scores and weights are modelled as exact rationals `ℚ` (every constant in
the source is a short decimal literal); Python lists as Lean lists, with
dict insertion order made explicit.  Character-class predicates (`\w`,
`str.isupper`, `str.lower`, whitespace) are modelled on their ASCII
behaviour, which is the range exercised by the pipeline's fixed keyword
tables.
-/
import Mathlib

set_option maxRecDepth 100000

namespace DocIntel

/-- Python strings, modelled as lists of characters. -/
abbrev Str := List Char

/-- Build a `Str` from a Lean string literal. -/
def S (s : String) : Str := s.data

/-- ASCII alphabetic character (the regex class `[a-zA-Z]`). -/
def isAsciiAlpha (c : Char) : Bool :=
  ('a' ≤ c && c ≤ 'z') || ('A' ≤ c && c ≤ 'Z')

/-- Python regex word character `\w` (ASCII fragment): letters, digits, `_`. -/
def isWordChar (c : Char) : Bool :=
  isAsciiAlpha c || c.isDigit || c = '_'

/-- Python `str.lower` (ASCII behaviour). -/
def pyLower (s : Str) : Str := s.map Char.toLower

/-- Scanner for `re.findall(r'\b[a-zA-Z]{3,}\b', s)`: collects the maximal
ASCII-alphabetic runs of length ≥ 3 whose neighbouring characters (when
present) are not word characters (the `\b` anchors).  `pOk` records whether
the character immediately before the current run position was a non-word
character (or the start of the string); `cur` is the current run, reversed. -/
def alphaTokensAux (pOk : Bool) (cur : Str) : Str → List Str
  | [] => if cur ≠ [] ∧ cur.length ≥ 3 ∧ pOk then [cur.reverse] else []
  | c :: cs =>
    if isAsciiAlpha c then alphaTokensAux pOk (c :: cur) cs
    else
      let rest := alphaTokensAux (¬ isWordChar c) [] cs
      if cur ≠ [] ∧ cur.length ≥ 3 ∧ pOk ∧ ¬ isWordChar c then
        cur.reverse :: rest
      else rest

/-- The tokenization `re.findall(r'\b[a-zA-Z]{3,}\b', s)` used by
`extract_keywords` and `calculate_text_similarity` in `utils.py`. -/
def findAlphaTokens (s : Str) : List Str := alphaTokensAux true [] s

/-- Python `str.split()` (split on whitespace runs, dropping empty pieces);
`cur` is the current word, reversed. -/
def splitWsAux (cur : Str) : Str → List Str
  | [] => if cur = [] then [] else [cur.reverse]
  | c :: cs =>
    if c.isWhitespace then
      if cur = [] then splitWsAux [] cs else cur.reverse :: splitWsAux [] cs
    else splitWsAux (c :: cur) cs

/-- Python `str.split()` with no argument. -/
def splitWhitespace (s : Str) : List Str := splitWsAux [] s

/-- Python `str.split(sep)` for a single-character separator
(keeps empty pieces). -/
def splitOnCharAux (sep : Char) (cur : Str) : Str → List Str
  | [] => [cur.reverse]
  | c :: cs =>
    if c = sep then cur.reverse :: splitOnCharAux sep [] cs
    else splitOnCharAux sep (c :: cur) cs

/-- Python `str.split(sep)` (single-character separator). -/
def splitOnChar (sep : Char) (s : Str) : List Str := splitOnCharAux sep [] s

/-- `re.split(r'[D]+', s)` for a class of delimiter characters: the pieces
between maximal delimiter runs.  `inD` records whether the previous
character was a delimiter. -/
def splitDelimRunsAux (isD : Char → Bool) (inD : Bool) (cur : Str) :
    Str → List Str
  | [] => [cur.reverse]
  | c :: cs =>
    if isD c then
      if inD then splitDelimRunsAux isD true cur cs
      else cur.reverse :: splitDelimRunsAux isD true [] cs
    else splitDelimRunsAux isD false (c :: cur) cs

/-- `re.split` on a maximal run of delimiter characters. -/
def splitDelimRuns (isD : Char → Bool) (s : Str) : List Str :=
  splitDelimRunsAux isD false [] s

/-- Python `str.strip()`: remove leading and trailing whitespace. -/
def strip (s : Str) : Str :=
  ((s.dropWhile Char.isWhitespace).reverse.dropWhile Char.isWhitespace).reverse

/-- Python `min(a, b)` on rationals, written so that the kernel can
evaluate it. -/
def pymin (a b : ℚ) : ℚ := if a ≤ b then a else b

/-- Python `max(a, b)` on rationals, written so that the kernel can
evaluate it. -/
def pymax (a b : ℚ) : ℚ := if b ≤ a then a else b

/-- `l` is a prefix of the second argument. -/
def isPrefixOfStr : Str → Str → Bool
  | [], _ => true
  | _ :: _, [] => false
  | a :: as, b :: bs => a = b && isPrefixOfStr as bs

/-- Python substring containment `needle in hay`. -/
def isSubstrOf (needle : Str) : Str → Bool
  | [] => needle.isEmpty
  | c :: cs => isPrefixOfStr needle (c :: cs) || isSubstrOf needle cs

/-- First-seen deduplication: keeps the first occurrence of every element,
in encounter order (the order-preserving part of a Python dict / of an
insertion-ordered set).  `List.dedup` keeps last occurrences, so the list
is reversed around it. -/
def firstDedup (l : List Str) : List Str := l.reverse.dedup.reverse

/-! ### utils.py -/

/-- The stop-word set of `utils.extract_keywords` (a Python set literal;
written in source order). -/
def stop_words : List Str :=
  [S "the", S "and", S "or", S "but", S "in", S "on", S "at", S "to",
   S "for", S "of", S "with", S "by", S "from", S "up", S "about", S "into",
   S "through", S "during", S "before", S "after", S "above", S "below",
   S "between", S "among", S "this", S "that", S "these", S "those",
   S "was", S "were", S "been", S "have", S "has", S "had", S "will",
   S "would", S "could", S "should", S "may", S "might", S "can", S "must",
   S "shall", S "such", S "very", S "more", S "most", S "some", S "any",
   S "all", S "each", S "every", S "other", S "another", S "same",
   S "different"]

/-- One step of the frequency dict of `extract_keywords`:
`word_freq[word] = word_freq.get(word, 0) + 1` on an insertion-ordered
association list. -/
def bumpFreq (w : Str) : List (Str × Nat) → List (Str × Nat)
  | [] => [(w, 1)]
  | (v, n) :: rest =>
    if v = w then (v, n + 1) :: rest else (v, n) :: bumpFreq w rest

/-- The frequency dict built by the counting loop of `extract_keywords`,
in key-insertion (first-seen) order. -/
def buildFreq (l : List Str) : List (Str × Nat) :=
  l.foldl (fun acc w => bumpFreq w acc) []

/-- `utils.extract_keywords(text, max_keywords)`: tokenize
(`\b[a-zA-Z]{3,}\b` on the lowercased text), keep words that are not stop
words and have length > 3, count frequencies in an insertion-ordered dict,
stable-sort descending by count (Python's `sorted(..., key=count,
reverse=True)` is stable; `List.insertionSort` with this relation is the
stable descending sort), and return the first `max_keywords` words. -/
def extract_keywords (text : Str) (max_keywords : Nat) : List Str :=
  if text = [] then []
  else
    let words := findAlphaTokens (pyLower text)
    let kept := words.filter (fun w => w ∉ stop_words ∧ w.length > 3)
    let sorted :=
      List.insertionSort (fun a b : Str × Nat => b.2 ≤ a.2) (buildFreq kept)
    (sorted.take max_keywords).map Prod.fst

/-- `extract_keywords` as the frozen claim describes it — keeping tokens of
length at least 3 — written from the claim's words: distinct kept tokens in
first-seen order, stable-sorted by raw frequency descending, truncated to
`max_keywords`.  Used to compare the claim against the implementation. -/
def extract_keywords_claimed (text : Str) (max_keywords : Nat) : List Str :=
  if text = [] then []
  else
    let kept := (findAlphaTokens (pyLower text)).filter
      (fun w => w ∉ stop_words ∧ w.length ≥ 3)
    (List.insertionSort (fun a b : Str => kept.count b ≤ kept.count a)
      (firstDedup kept)).take max_keywords

/-- `extract_keywords` as the amended claim describes it — keeping tokens
of length greater than 3 (the implementation's `len(word) > 3` filter):
distinct kept tokens in first-seen order, stable-sorted by raw frequency
descending, truncated to `max_keywords`. -/
def extract_keywords_amended (text : Str) (max_keywords : Nat) : List Str :=
  if text = [] then []
  else
    let kept := (findAlphaTokens (pyLower text)).filter
      (fun w => w ∉ stop_words ∧ w.length > 3)
    (List.insertionSort (fun a b : Str => kept.count b ≤ kept.count a)
      (firstDedup kept)).take max_keywords

/-- `utils.calculate_text_similarity(text1, text2)`: Jaccard similarity of
the token sets of the two texts; 0 when either text or either token set is
empty. -/
def calculate_text_similarity (t1 t2 : Str) : ℚ :=
  if t1 = [] ∨ t2 = [] then 0
  else
    let w1 := (findAlphaTokens (pyLower t1)).toFinset
    let w2 := (findAlphaTokens (pyLower t2)).toFinset
    if w1 = ∅ ∨ w2 = ∅ then 0
    else
      let inter := (w1 ∩ w2).card
      let union := (w1 ∪ w2).card
      if union > 0 then (inter : ℚ) / (union : ℚ) else 0

/-! ### persona_analyzer.py -/

/-- Association-list lookup with a default, modelling `dict.get(key, d)`
on a Python dict in insertion order. -/
def dictGet {α : Type} (d : List (Str × α)) (k : Str) (dflt : α) : α :=
  match d.find? (fun p => p.1 = k) with
  | some p => p.2
  | none => dflt

/-- `PersonaAnalyzer`'s `PersonaContext` dataclass. -/
structure PersonaContext where
  role : Str
  domain : Str
  expertise_areas : List Str
  job_keywords : List Str
  job_intent : Str
  priority_topics : List Str
  relevant_sections : List Str
  analysis_depth : Str
deriving DecidableEq

/-- `PersonaAnalyzer.__init__`: `self.intent_patterns`, a Python dict in
insertion order mapping each intent label to its trigger substrings. -/
def intent_patterns : List (Str × List Str) :=
  [(S "comprehensive_review",
    [S "comprehensive", S "complete", S "thorough", S "detailed", S "full",
     S "extensive", S "in-depth"]),
   (S "summary",
    [S "summarize", S "overview", S "brief", S "key points", S "main",
     S "highlights", S "synopsis"]),
   (S "comparison",
    [S "compare", S "contrast", S "versus", S "difference", S "similar",
     S "evaluate", S "assessment"]),
   (S "analysis",
    [S "analyze", S "examine", S "evaluate", S "assess", S "investigate",
     S "study", S "research"]),
   (S "extraction",
    [S "extract", S "identify", S "find", S "locate", S "list", S "collect",
     S "gather"]),
   (S "preparation",
    [S "prepare", S "study", S "learn", S "understand", S "review", S "plan",
     S "develop", S "create", S "design"]),
   (S "implementation",
    [S "implement", S "execute", S "apply", S "build", S "construct",
     S "develop"]),
   (S "optimization",
    [S "optimize", S "improve", S "enhance", S "maximize", S "minimize",
     S "streamline"])]

/-- `PersonaAnalyzer._analyze_job_intent`: first intent whose trigger list
has a substring of the lowercased job description (dict iteration order =
insertion order), else a verb-based fallback. -/
def analyze_job_intent (job_description : Str) : Str :=
  let job_lower := pyLower job_description
  match intent_patterns.find?
      (fun p => p.2.any (fun pat => isSubstrOf pat job_lower)) with
  | some p => p.1
  | none =>
    if [S "prepare", S "create", S "write"].any
        (fun v => isSubstrOf v job_lower) then S "preparation"
    else if [S "understand", S "learn", S "study"].any
        (fun v => isSubstrOf v job_lower) then S "learning"
    else S "analysis"

/-- `PersonaAnalyzer._extract_job_keywords` on the fallback path where no
spaCy model is loaded (the spaCy branch is an external NLP collaborator):
`keywords = extract_keywords(job_description, max_keywords=15)` followed by
`list(set(keywords))[:20]`.  Python enumerates a set in an
interpreter-dependent order (string hashing is randomized per process), so
the set-to-list step is modelled by an explicit enumeration parameter
`enum`; a faithful `enum` returns a permutation of `firstDedup` of its
input. -/
def extract_job_keywords (enum : List Str → List Str) (job_description : Str) :
    List Str :=
  (enum (extract_keywords job_description 15)).take 20

/-- `PersonaAnalyzer._determine_priority_topics` on the fallback path where
no spaCy model is loaded: keyword extraction over the combined
`f"{persona} {job_description}"` text, lowercased, `list(set(...))`
(modelled by `enum` as in `extract_job_keywords`), terms of length ≤ 2
dropped, capped at 20. -/
def determine_priority_topics (enum : List Str → List Str)
    (persona job_description : Str) : List Str :=
  let combined := persona ++ [' '] ++ job_description
  let keywords := extract_keywords combined 15
  let priority_topics := keywords.map pyLower
  let unique_topics := enum priority_topics
  (unique_topics.filter (fun t => t.length > 2)).take 20

/-- `PersonaAnalyzer._identify_relevant_sections`: `section_mapping`, a
Python dict in insertion order. -/
def section_mapping : List (Str × List Str) :=
  [(S "comprehensive_review",
    [S "methodology", S "results", S "discussion", S "conclusion",
     S "introduction", S "analysis"]),
   (S "summary",
    [S "abstract", S "summary", S "conclusion", S "key findings",
     S "overview", S "highlights"]),
   (S "comparison",
    [S "results", S "analysis", S "comparison", S "evaluation",
     S "performance", S "assessment"]),
   (S "analysis",
    [S "analysis", S "results", S "data", S "findings", S "discussion",
     S "evaluation"]),
   (S "extraction",
    [S "methodology", S "approach", S "implementation", S "procedure",
     S "methods", S "techniques"]),
   (S "preparation",
    [S "introduction", S "background", S "concepts", S "principles",
     S "theory", S "fundamentals"]),
   (S "implementation",
    [S "procedure", S "steps", S "process", S "implementation",
     S "execution", S "application"]),
   (S "optimization",
    [S "improvement", S "optimization", S "enhancement", S "performance",
     S "efficiency"])]

/-- `_identify_relevant_sections`: the universally useful section types
appended to the intent-specific list. -/
def universal_sections : List Str :=
  [S "overview", S "summary", S "key points", S "important", S "main",
   S "primary"]

/-- `PersonaAnalyzer._identify_relevant_sections(job_intent, domain)`:
intent-specific section types (with a default for unknown intents) plus the
universal ones, then `list(set(...))[:15]` (set enumeration modelled by
`enum`; `domain` is accepted but unused, as in the source). -/
def identify_relevant_sections (enum : List Str → List Str)
    (job_intent _domain : Str) : List Str :=
  let relevant_sections :=
    dictGet section_mapping job_intent
      [S "introduction", S "results", S "conclusion"]
  (enum (relevant_sections ++ universal_sections)).take 15

/-! ### content_extractor.py -/

/-- The `ExtractedSection` dataclass. -/
structure ExtractedSection where
  document : Str
  page_number : Nat
  section_title : Str
  content : Str
  content_preview : Str
  relevance_score : ℚ
  word_count : Nat
  char_count : Nat
  section_type : Str
  key_concepts : List Str
deriving DecidableEq, Inhabited

/-- `ContentExtractor.__init__`: minimum characters for a section. -/
def min_section_length : Nat := 100

/-- `ContentExtractor.__init__`: maximum characters extracted per section. -/
def max_section_length : Nat := 2000

/-- `ContentExtractor.__init__`: minimum relevance score to include. -/
def min_relevance_threshold : ℚ := 1/100

/-- Last character test, modelling Python `str.endswith(c)` for a single
character (`False` on the empty string). -/
def endsWithChar (s : Str) (c : Char) : Bool := s.getLast? = some c

/-- First-seen deduplication under a key function (the `seen`-set loop of
`_extract_key_terms_universal`, which dedups on `term.lower()` while
keeping the original term and order).  `List.pwFilter` keeps last
occurrences per key, so the list is reversed around it. -/
def firstDedupBy (f : Str → Str) (l : List Str) : List Str :=
  (l.reverse.pwFilter (fun a b => f a ≠ f b)).reverse

/-- Python `str.title()` (ASCII behaviour): a letter is uppercased when the
preceding character is not a letter, lowercased otherwise. -/
def pyTitleAux (prevAlpha : Bool) : Str → Str
  | [] => []
  | c :: cs =>
    (if c.isAlpha then (if prevAlpha then c.toLower else c.toUpper) else c)
      :: pyTitleAux c.isAlpha cs

/-- Python `str.title()`. -/
def pyTitle (s : Str) : Str := pyTitleAux false s

/-- A keyword alternative in the trailing group of a key-term pattern
(`optS` models a trailing `s?`). -/
structure KTKeyword where
  base : Str
  optS : Bool

/-- One of the five regex patterns of `_extract_key_terms_universal`:
an optional leading `\b`, an optional non-capturing prefix (alternatives,
each a `\s+`-separated word sequence with a trailing `\s+`), a captured
group `[a-z]+(?:\s+[a-z]+){0,maxExtra}`, and an optional `\s+(?:kw|…)`
suffix. -/
structure KTPattern where
  boundary : Bool
  prefixAlternatives : List (List Str)
  maxExtra : Nat
  suffix : Option (List KTKeyword)

/-- Maximal `[a-zA-Z]+` run at the head of the input (the regex `[a-z]+`
under `re.IGNORECASE`); `none` when the head is not a letter. -/
def matchWordRun (s : Str) : Option (Str × Str) :=
  let run := s.takeWhile isAsciiAlpha
  if run = [] then none else some (run, s.drop run.length)

/-- Maximal `\s+` run at the head of the input; `none` when the head is not
whitespace. -/
def matchWsRun (s : Str) : Option (Str × Str) :=
  let run := s.takeWhile Char.isWhitespace
  if run = [] then none else some (run, s.drop run.length)

/-- Case-insensitive literal match at the head of the input, returning the
remainder. -/
def matchLit (lit s : Str) : Option Str :=
  if pyLower (s.take lit.length) = pyLower lit then some (s.drop lit.length)
  else none

/-- Candidate matches of `(?:\s+[a-z]+){0,n}` continuing a capture `cap`,
listed with the fewest repetitions first (each candidate is the capture so
far and the remaining input). -/
def extendCands : Nat → Str → Str → List (Str × Str)
  | 0, cap, rest => [(cap, rest)]
  | n + 1, cap, rest =>
    (cap, rest) ::
      (match matchWsRun rest with
       | none => []
       | some (ws, r1) =>
         match matchWordRun r1 with
         | none => []
         | some (w, r2) => extendCands n (cap ++ ws ++ w) r2)

/-- Match one keyword alternative (greedy `s?`: the plural form is tried
first, as the regex engine does). -/
def matchKTKeyword (k : KTKeyword) (s : Str) : Option Str :=
  if k.optS then
    match matchLit (k.base ++ [ 's' ]) s with
    | some r => some r
    | none => matchLit k.base s
  else matchLit k.base s

/-- Match the keyword alternation, trying alternatives in source order. -/
def matchAnyKTKeyword : List KTKeyword → Str → Option Str
  | [], _ => none
  | k :: ks, s =>
    match matchKTKeyword k s with
    | some r => some r
    | none => matchAnyKTKeyword ks s

/-- Match one `\s+`-separated word-literal prefix with trailing `\s+`. -/
def matchKTPrefix : List Str → Str → Option Str
  | [], s => some s
  | w :: ws, s =>
    match matchLit w s with
    | none => none
    | some r1 =>
      match matchWsRun r1 with
      | none => none
      | some (_, r2) => matchKTPrefix ws r2

/-- Try the prefix alternatives in source order. -/
def tryKTPrefixes : List (List Str) → Str → Option Str
  | [], _ => none
  | p :: ps, s =>
    match matchKTPrefix p s with
    | some r => some r
    | none => tryKTPrefixes ps s

/-- First capture candidate (in greedy order: most repetitions first) whose
remainder matches `\s+` followed by a keyword alternative; returns the
capture and the remainder after the keyword. -/
def firstCandWithSuffix (ks : List KTKeyword) :
    List (Str × Str) → Option (Str × Str)
  | [] => none
  | (cap, rest) :: more =>
    match matchWsRun rest with
    | none => firstCandWithSuffix ks more
    | some (_, r1) =>
      match matchAnyKTKeyword ks r1 with
      | some r2 => some (cap, r2)
      | none => firstCandWithSuffix ks more

/-- Attempt a whole-pattern match at the current position.  `prevWord`
records whether the character immediately before this position is a word
character (for the leading `\b`).  Returns the captured group and the
remaining input after the full match. -/
def matchKTPatternAt (pat : KTPattern) (prevWord : Bool) (s : Str) :
    Option (Str × Str) :=
  if pat.boundary ∧ prevWord then none
  else
    let afterPrefix :=
      match pat.prefixAlternatives with
      | [] => some s
      | ps => tryKTPrefixes ps s
    match afterPrefix with
    | none => none
    | some s1 =>
      match matchWordRun s1 with
      | none => none
      | some (w, r) =>
        let cands := (extendCands pat.maxExtra w r).reverse
        match pat.suffix with
        | none => cands.head?
        | some ks => firstCandWithSuffix ks cands

/-- `re.findall` for a key-term pattern: scan left to right, emit the
capture of each non-overlapping match and continue after its end (every
match here ends in a letter, so the following scan position is preceded by
a word character).  Fuel (the input length at the start) bounds the scan;
every step consumes at least one character. -/
def scanKTPattern (pat : KTPattern) : Nat → Bool → Str → List Str
  | 0, _, _ => []
  | _ + 1, _, [] => []
  | fuel + 1, prevWord, c :: cs =>
    match matchKTPatternAt pat prevWord (c :: cs) with
    | some (cap, rest) => cap :: scanKTPattern pat fuel true rest
    | none => scanKTPattern pat fuel (isWordChar c) cs

/-- The five key-term patterns of `_extract_key_terms_universal`, in source
order. -/
def key_patterns : List KTPattern :=
  [⟨true, [], 2, some [⟨S "recipe", false⟩, ⟨S "method", false⟩,
      ⟨S "technique", false⟩, ⟨S "approach", false⟩, ⟨S "guide", false⟩,
      ⟨S "tutorial", false⟩]⟩,
   ⟨true, [], 2, some [⟨S "analysis", false⟩, ⟨S "overview", false⟩,
      ⟨S "summary", false⟩, ⟨S "introduction", false⟩]⟩,
   ⟨true, [], 2, some [⟨S "instruction", true⟩, ⟨S "procedure", false⟩,
      ⟨S "process", false⟩, ⟨S "step", true⟩]⟩,
   ⟨false, [[S "how", S "to"], [S "to"]], 3, none⟩,
   ⟨true, [], 2, some [⟨S "ingredient", true⟩, ⟨S "component", true⟩,
      ⟨S "element", true⟩]⟩]

/-- `ContentExtractor._extract_key_terms_universal(content)`: run each
pattern's `findall` over the content, keep stripped captures of length > 3,
dedup on the lowercased term keeping first occurrences, return the first
three. -/
def extract_key_terms_universal (content : Str) : List Str :=
  let key_terms := key_patterns.flatMap (fun pat =>
    ((scanKTPattern pat content.length false content).map strip).filter
      (fun t => t.length > 3))
  (firstDedupBy pyLower key_terms).take 3

/-- `ContentExtractor._is_good_original_title(title)`. -/
def is_good_original_title (title : Str) : Bool :=
  if title = [] ∨ title.length < 3 then false
  else
    decide (title.length ≤ 60 ∧ (splitWhitespace title).length ≤ 8 ∧
      title ∉ [S "Full Page Content", S "General", S "Introduction",
               S "Conclusion"] ∧
      ¬ endsWithChar title ':' ∧
      ¬ isSubstrOf (S "Comprehensive Form_Creation") title ∧
      ¬ isSubstrOf (S "Scanned document content") title)

/-- The line scan of `_generate_descriptive_title_enhanced` (IMPROVEMENT 1):
for each of the first ten lines, strip it and test the structural title
conditions; on success look the stripped line up in the full line list
(`content_lines.index(line) if line in content_lines else -1`) and accept
it when a substantial next line follows, else keep scanning. -/
def scanTitleLines (allLines : List Str) : List Str → Option Str
  | [] => none
  | l :: rest =>
    let line := strip l
    if 5 ≤ line.length ∧ line.length ≤ 50 ∧
        (splitWhitespace line).length ≤ 6 ∧
        (line.headD 'a').isUpper ∧
        ¬ endsWithChar line '.' ∧ line.any Char.isAlpha then
      match allLines.findIdx? (fun y => y = line) with
      | some idx =>
        if idx + 1 < allLines.length ∧
            (strip (allLines.getD (idx + 1) [])).length > 20 then some line
        else scanTitleLines allLines rest
      | none => scanTitleLines allLines rest
    else scanTitleLines allLines rest

/-- `ContentExtractor._generate_descriptive_title_enhanced(original_title,
content, filename, persona_context)` (`filename` and the persona context
are accepted but unused, as in the source). -/
def generate_descriptive_title_enhanced (original_title content _filename : Str)
    (_ctx : PersonaContext) : Str :=
  if is_good_original_title original_title then original_title
  else
    let content_lines := splitOnChar '\n' content
    match scanTitleLines content_lines (content_lines.take 10) with
    | some line => line
    | none =>
      match extract_key_terms_universal (pyLower content) with
      | [] =>
        if original_title.length > 3 then original_title
        else S "Content Section"
      | t :: rest =>
        match rest with
        | [] => pyTitle t ++ S " Information"
        | t2 :: _ => pyTitle t ++ S " and " ++ pyTitle t2

/-- `\d+\.` occurs in the string: some digit immediately followed by a
dot. -/
def digitDot : Str → Bool
  | [] => false
  | [_] => false
  | c :: d :: rest => (c.isDigit && d = '.') || digitDot (d :: rest)

/-- `re.search(r'\d+\.|\*|\-|\•', s)` succeeds. -/
def hasRelStructure (s : Str) : Bool :=
  digitDot s || s.any (fun c => c = '*' || c = '-' || c = '•')

/-- `ContentExtractor._calculate_relevance_score_enhanced(content, title,
persona_context)`: role-word and job-keyword occurrence bonuses plus
universal content-quality indicators, capped at 1.0. -/
def calculate_relevance_score_enhanced (content title : Str)
    (ctx : PersonaContext) : ℚ :=
  let content_lower := pyLower content
  let title_lower := pyLower title
  let roleScore : ℚ :=
    if ctx.role ≠ [] then
      ((splitWhitespace ctx.role).filter (fun w => w.length > 3)).foldl
        (fun acc w =>
          acc + (if isSubstrOf (pyLower w) content_lower then 1/10 else 0)
              + (if isSubstrOf (pyLower w) title_lower then 2/10 else 0)) 0
    else 0
  let keywordScore : ℚ :=
    if ctx.job_keywords ≠ [] then
      ctx.job_keywords.foldl
        (fun acc kw =>
          acc + (if isSubstrOf (pyLower kw) content_lower then 3/20 else 0)
              + (if isSubstrOf (pyLower kw) title_lower then 5/20 else 0)) 0
    else 0
  let qualityScore : ℚ :=
    (if (splitWhitespace content).length > 30 then 1/10 else 0)
    + (if [S "ingredients", S "instructions", S "method", S "procedure"].any
          (fun ind => isSubstrOf ind content_lower) then 3/20 else 0)
    + (if hasRelStructure content then 1/10 else 0)
  pymin 1 (roleScore + keywordScore + qualityScore)

/-- `ContentExtractor._classify_section_type_enhanced(title, content)`. -/
def classify_section_type_enhanced (title content : Str) : Str :=
  let title_lower := pyLower title
  let content_lower := pyLower content
  if [S "recipe", S "dish", S "food", S "ingredient"].any
      (fun w => isSubstrOf w title_lower) then S "recipe"
  else if [S "analysis", S "review", S "study", S "research"].any
      (fun w => isSubstrOf w title_lower) then S "analysis"
  else if [S "guide", S "tutorial", S "instruction", S "how"].any
      (fun w => isSubstrOf w title_lower) then S "guide"
  else if [S "overview", S "summary", S "introduction"].any
      (fun w => isSubstrOf w title_lower) then S "overview"
  else if [S "ingredients:", S "instructions:", S "method:", S "procedure:"].any
      (fun w => isSubstrOf w content_lower) then S "procedure"
  else S "content"

/-- Sentence delimiters of `_create_enhanced_preview`
(`re.split(r'[.!?]+', content)`). -/
def isSentDelim (c : Char) : Bool := c = '.' || c = '!' || c = '?'

/-- The sentence-collection loop of `_create_enhanced_preview`: keep
stripped sentences longer than 10 characters, stopping once the
space-joined parts exceed 150 characters. -/
def pickPreviewParts (acc : List Str) : List Str → List Str
  | [] => acc
  | sentence :: rest =>
    let s := strip sentence
    if s.length > 10 then
      let acc2 := acc ++ [s]
      if (List.intercalate (S " ") acc2).length > 150 then acc2
      else pickPreviewParts acc2 rest
    else pickPreviewParts acc rest

/-- `ContentExtractor._create_enhanced_preview(content)`. -/
def create_enhanced_preview (content : Str) : Str :=
  let sentences := splitDelimRuns isSentDelim content
  let preview_parts := pickPreviewParts [] (sentences.take 3)
  let preview := List.intercalate (S ". ") preview_parts
  let preview :=
    if preview.length > 200 then preview.take 200 ++ S "..." else preview
  if preview ≠ [] then preview else content.take 200 ++ S "..."

/-- `ContentExtractor._create_section_from_text_enhanced(content, filename,
page_number, title, persona_context)`: discard short content, truncate long
content with an ellipsis, generate the descriptive title, score, classify,
and build the `ExtractedSection`. -/
def create_section_from_text_enhanced (content filename : Str)
    (page_number : Nat) (title : Str) (ctx : PersonaContext) :
    Option ExtractedSection :=
  if content.length < min_section_length then none
  else
    let content :=
      if content.length > max_section_length then
        content.take max_section_length ++ S "..."
      else content
    let descriptive_title :=
      generate_descriptive_title_enhanced title content filename ctx
    let relevance_score :=
      calculate_relevance_score_enhanced content descriptive_title ctx
    let key_concepts := extract_keywords content 10
    let section_type := classify_section_type_enhanced descriptive_title content
    let content_preview := create_enhanced_preview content
    some { document := filename
           page_number := page_number
           section_title := descriptive_title
           content := content
           content_preview := content_preview
           relevance_score := relevance_score
           word_count := (splitWhitespace content).length
           char_count := content.length
           section_type := section_type
           key_concepts := key_concepts }

/-- `ContentExtractor._calculate_relevance_score(content, persona_context)`:
the legacy four-term weighted relevance (job keywords 0.4, priority topics
0.3, expertise areas 0.2, relevant section types 0.1), each term the
matched fraction of its persona-context list, capped at 1.0.  In the
source it is called only from the unused non-enhanced creation path. -/
def calculate_relevance_score (content : Str) (ctx : PersonaContext) : ℚ :=
  if strip content = [] then 0
  else
    let content_lower := pyLower content
    let job_keyword_score : ℚ :=
      if ctx.job_keywords ≠ [] then
        (ctx.job_keywords.countP (fun kw => isSubstrOf kw content_lower) : ℚ)
          / (ctx.job_keywords.length : ℚ)
      else 0
    let topic_score : ℚ :=
      if ctx.priority_topics ≠ [] then
        (ctx.priority_topics.countP (fun t => isSubstrOf t content_lower) : ℚ)
          / (ctx.priority_topics.length : ℚ)
      else 0
    let expertise_score : ℚ :=
      if ctx.expertise_areas ≠ [] then
        (ctx.expertise_areas.countP
            (fun a => isSubstrOf (pyLower a) content_lower) : ℚ)
          / (ctx.expertise_areas.length : ℚ)
      else 0
    let section_score : ℚ :=
      if ctx.relevant_sections ≠ [] then
        (ctx.relevant_sections.countP (fun sct => isSubstrOf sct content_lower) : ℚ)
          / (ctx.relevant_sections.length : ℚ)
      else 0
    pymin (job_keyword_score * (4/10) + topic_score * (3/10)
           + expertise_score * (2/10) + section_score * (1/10)) 1

/-! ### ranking_engine.py -/

/-- The `RankedSection` dataclass. -/
structure RankedSection where
  document : Str
  page_number : Nat
  section_title : Str
  content : Str
  content_preview : Str
  importance_rank : Nat
  relevance_score : ℚ
  diversity_bonus : ℚ
  coverage_score : ℚ
  final_score : ℚ
  word_count : Nat
  char_count : Nat
  section_type : Str
  key_concepts : List Str
  ranking_factors : List (Str × ℚ)
deriving DecidableEq

/-- `RankingEngine.__init__`: `self.weights['relevance']`. -/
def weights_relevance : ℚ := 35/100

/-- `RankingEngine.__init__`: `self.weights['priority_boost']`.  Configured
in the weights dict but never multiplied into the final score (the boost is
added raw in `_calculate_section_ranking`). -/
def weights_priority_boost : ℚ := 25/100

/-- `RankingEngine.__init__`: `self.weights['diversity']`. -/
def weights_diversity : ℚ := 15/100

/-- `RankingEngine.__init__`: `self.weights['coverage']`. -/
def weights_coverage : ℚ := 15/100

/-- `RankingEngine.__init__`: `self.weights['section_type']`. -/
def weights_section_type : ℚ := 5/100

/-- `RankingEngine.__init__`: `self.weights['length']`. -/
def weights_length : ℚ := 5/100

/-- `RankingEngine.__init__`: `self.section_importance` (dict in insertion
order; unknown types fall back to 0.5 through `dict.get`). -/
def section_importance : List (Str × ℚ) :=
  [(S "abstract", 9/10), (S "summary", 85/100), (S "introduction", 7/10),
   (S "methodology", 8/10), (S "results", 9/10), (S "discussion", 8/10),
   (S "conclusion", 85/100), (S "content", 75/100), (S "general", 6/10),
   (S "default", 5/10)]

/-- `RankingEngine.__init__`: `self.intent_section_preference`. -/
def intent_section_preference : List (Str × List Str) :=
  [(S "comprehensive_review",
    [S "methodology", S "results", S "discussion", S "conclusion",
     S "introduction"]),
   (S "summary", [S "abstract", S "summary", S "conclusion", S "overview"]),
   (S "comparison",
    [S "results", S "discussion", S "analysis", S "evaluation"]),
   (S "analysis", [S "results", S "discussion", S "methodology", S "data"]),
   (S "extraction",
    [S "methodology", S "content", S "details", S "information"]),
   (S "preparation",
    [S "introduction", S "summary", S "overview", S "background"]),
   (S "implementation",
    [S "methodology", S "procedure", S "process", S "steps"]),
   (S "optimization",
    [S "results", S "performance", S "analysis", S "evaluation"])]

/-- `RankingEngine._calculate_diversity_bonus(section, all_sections)`:
one minus the mean similarity to the other sections of the batch (sections
equal to this one as dataclass values are skipped by the `!=` test), 1.0
for a singleton batch or when no other section remains, clamped to
`[0, 1]`. -/
def calculate_diversity_bonus (s : ExtractedSection)
    (all_sections : List ExtractedSection) : ℚ :=
  if all_sections.length ≤ 1 then 1
  else
    let similarities := (all_sections.filter (fun o => o ≠ s)).map
      (fun o => calculate_text_similarity s.content o.content)
    if similarities = [] then 1
    else
      let avg_similarity := similarities.sum / (similarities.length : ℚ)
      pymax 0 (pymin 1 (1 - avg_similarity))

/-- `RankingEngine._calculate_coverage_score(section, persona_context)`:
0.5 when there are no priority topics, otherwise the covered fraction of
topics, times 1.1 when more than one topic is covered, capped at 1.0. -/
def calculate_coverage_score (s : ExtractedSection) (ctx : PersonaContext) :
    ℚ :=
  if ctx.priority_topics = [] then 1/2
  else
    let content_lower := pyLower s.content
    let covered_topics :=
      ctx.priority_topics.countP (fun t => isSubstrOf (pyLower t) content_lower)
    let coverage_score :=
      (covered_topics : ℚ) / (ctx.priority_topics.length : ℚ)
    let coverage_score :=
      if covered_topics > 1 then coverage_score * (11/10) else coverage_score
    pymin 1 coverage_score

/-- `RankingEngine._calculate_intent_bonus(section, persona_context)`:
`0.3 × (1 − index/len)` when the section type occurs in the intent's
preferred list (earlier positions score more), else 0. -/
def calculate_intent_bonus (s : ExtractedSection) (ctx : PersonaContext) :
    ℚ :=
  match intent_section_preference.find? (fun p => p.1 = ctx.job_intent) with
  | none => 0
  | some p =>
    match p.2.findIdx? (fun t => t = s.section_type) with
    | none => 0
    | some index => (3/10) * (1 - (index : ℚ) / (p.2.length : ℚ))

/-- `RankingEngine._calculate_length_score(section)`: 1.0 for 50–300 words,
a linear ramp below 50, a diminishing penalty (floor 0.5) above 300. -/
def calculate_length_score (s : ExtractedSection) : ℚ :=
  let word_count := s.word_count
  if 50 ≤ word_count ∧ word_count ≤ 300 then 1
  else if word_count < 50 then (word_count : ℚ) / 50
  else 1 - pymin (1/2) (((word_count : ℚ) - 300) / 1000)

/-- `RankingEngine._calculate_priority_boost`: the quality-indicator table
(indicator, boost), in source order. -/
def quality_indicators : List (Str × ℚ) :=
  [(S "specific examples", 15/10), (S "detailed information", 12/10),
   (S "step-by-step", 2), (S "comprehensive", 1), (S "practical", 15/10),
   (S "essential", 13/10), (S "important", 1), (S "key", 12/10),
   (S "critical", 14/10), (S "main", 11/10), (S "primary", 11/10),
   (S "best", 13/10)]

/-- `RankingEngine._calculate_priority_boost`: the generic-title penalty
patterns. -/
def generic_patterns : List Str :=
  [S "general overview", S "introduction to", S "background information",
   S "theoretical framework", S "abstract concepts",
   S "preliminary discussion"]

/-- `RankingEngine._calculate_priority_boost(section, persona_context)`:
quality indicators + keyword-match boost (capped at 4.0) + structure boost
+ page/document context boost + generic-title penalty, clamped to
`[0, 10]`. -/
def calculate_priority_boost (s : ExtractedSection) (ctx : PersonaContext) :
    ℚ :=
  let content := pyLower s.content
  let title := pyLower s.section_title
  let quality_boost := quality_indicators.foldl
    (fun acc p =>
      if isSubstrOf p.1 content ∨ isSubstrOf p.1 title then acc + p.2
      else acc) 0
  let job_keywords :=
    (if ctx.job_keywords ≠ [] then ctx.job_keywords.take 10 else [])
      ++ (if ctx.role ≠ [] then
            (splitWhitespace (pyLower ctx.role)).filter
              (fun w => w.length > 3)
          else [])
  let keyword_matches : Nat := job_keywords.foldl
    (fun acc kw =>
      acc + (if isSubstrOf kw content then 2 else 0)
          + (if isSubstrOf kw title then 3 else 0)) 0
  let relevance_boost := pymin (4 : ℚ) ((keyword_matches : ℚ) * (3/10))
  let structure_boost : ℚ :=
    (if (splitOnChar '\n' content).length > 3 then 1/2 else 0)
    + (if isSubstrOf (S "•") content ∨ isSubstrOf (S "-") content
       then 8/10 else 0)
    + (if [S "1.", S "2.", S "3."].any (fun n => isSubstrOf n content)
       then 1 else 0)
    + (if (splitWhitespace content).length > 50 then 7/10 else 0)
  let context_boost : ℚ :=
    (if s.page_number ≤ 3 then 1 else if s.page_number ≤ 6 then 1/2 else 0)
    + (job_keywords.take 5).foldl
        (fun acc kw =>
          if isSubstrOf kw (pyLower s.document) then acc + 8/10 else acc) 0
  let generic_penalty : ℚ :=
    if generic_patterns.any (fun p => isSubstrOf p title) then -1 else 0
  pymax 0 (pymin 10 (quality_boost + relevance_boost + structure_boost
                     + context_boost + generic_penalty))

/-- `RankingEngine._calculate_section_ranking(section, persona_context,
all_sections)`: compute every factor and combine them —
`relevance×0.35 + diversity×0.15 + coverage×0.15 + section_type×0.05 +
length×0.05 + priority_boost` (the boost is added raw).  The rank is set
to 0 and assigned after sorting. -/
def calculate_section_ranking (s : ExtractedSection) (ctx : PersonaContext)
    (all_sections : List ExtractedSection) : RankedSection :=
  let relevance_score := s.relevance_score
  let diversity_bonus := calculate_diversity_bonus s all_sections
  let coverage_score := calculate_coverage_score s ctx
  let intent_bonus := calculate_intent_bonus s ctx
  let section_type_score :=
    dictGet section_importance s.section_type (5/10) + intent_bonus
  let length_score := calculate_length_score s
  let priority_boost := calculate_priority_boost s ctx
  let final_score :=
    relevance_score * weights_relevance
    + diversity_bonus * weights_diversity
    + coverage_score * weights_coverage
    + section_type_score * weights_section_type
    + length_score * weights_length
    + priority_boost
  { document := s.document
    page_number := s.page_number
    section_title := s.section_title
    content := s.content
    content_preview := s.content_preview
    importance_rank := 0
    relevance_score := relevance_score
    diversity_bonus := diversity_bonus
    coverage_score := coverage_score
    final_score := final_score
    word_count := s.word_count
    char_count := s.char_count
    section_type := s.section_type
    key_concepts := s.key_concepts
    ranking_factors :=
      [(S "relevance", relevance_score), (S "diversity", diversity_bonus),
       (S "coverage", coverage_score), (S "section_type", section_type_score),
       (S "length", length_score), (S "intent_bonus", intent_bonus),
       (S "priority_boost", priority_boost)] }

/-- The rank-assignment pass of `rank_sections`: `importance_rank = i + 1`
along the sorted list. -/
def assignRanks : Nat → List RankedSection → List RankedSection
  | _, [] => []
  | i, s :: rest => { s with importance_rank := i } :: assignRanks (i + 1) rest

/-- The comparison used by `ranked_sections.sort(key=lambda x:
x.final_score, reverse=True)`: Python's sort is stable, and
`List.insertionSort` with this relation is exactly the stable descending
sort by final score. -/
def scoreDescRel (a b : RankedSection) : Prop := b.final_score ≤ a.final_score

instance : DecidableRel scoreDescRel :=
  fun a b => inferInstanceAs (Decidable (b.final_score ≤ a.final_score))

instance : IsTotal RankedSection scoreDescRel :=
  ⟨fun a b => le_total b.final_score a.final_score⟩

instance : IsTrans RankedSection scoreDescRel :=
  ⟨fun _ _ _ hab hbc => le_trans hbc hab⟩

/-- `RankingEngine.rank_sections(sections, persona_context)`: score every
section against the whole batch, stable-sort descending by final score,
and assign `importance_rank` 1.. in order. -/
def rank_sections (sections : List ExtractedSection) (ctx : PersonaContext) :
    List RankedSection :=
  if sections = [] then []
  else
    let ranked_sections :=
      sections.map (fun s => calculate_section_ranking s ctx sections)
    assignRanks 1 (List.insertionSort scoreDescRel ranked_sections)

/-- `RankingEngine._ensure_document_diversity(sections, max_sections)`:
returns the input unchanged when it has at most `max_sections` entries;
otherwise groups by document (defaultdict = first-occurrence key order),
allocates `max_sections // num_documents` per document plus one extra to
the first `max_sections % num_documents` documents, takes each document's
first sections up to its allocation, and stable-sorts the result by final
score descending. -/
def ensure_document_diversity (sections : List RankedSection)
    (max_sections : Nat) : List RankedSection :=
  if sections.length ≤ max_sections then sections
  else
    let docs := firstDedup (sections.map (fun s => s.document))
    let num_documents := docs.length
    let base_per_doc := max_sections / num_documents
    let remainder := max_sections % num_documents
    let result := docs.enum.flatMap (fun p =>
      (sections.filter (fun s => s.document = p.2)).take
        (base_per_doc + if p.1 < remainder then 1 else 0))
    List.insertionSort scoreDescRel result

/-- `RankingEngine.filter_top_sections(ranked_sections, max_sections,
min_score_threshold)` (defaults 15 and 0.3 at the call site): drop
sections below the threshold, apply document diversity, truncate to
`max_sections`. -/
def filter_top_sections (ranked_sections : List RankedSection)
    (max_sections : Nat) (min_score_threshold : ℚ) : List RankedSection :=
  let filtered :=
    ranked_sections.filter (fun s => min_score_threshold ≤ s.final_score)
  let filtered := ensure_document_diversity filtered max_sections
  filtered.take max_sections

/-! ### Concrete example data (used by counterexamples and witnesses) -/

/-- A persona context with every derived list empty. -/
def ctx0 : PersonaContext :=
  { role := [], domain := S "general", expertise_areas := [],
    job_keywords := [], job_intent := S "analysis", priority_topics := [],
    relevant_sections := [], analysis_depth := S "focused" }

/-- A persona context with two priority topics. -/
def ctxTopics : PersonaContext :=
  { ctx0 with priority_topics := [S "trip", S "france"] }

/-- Build a small `ExtractedSection` for concrete tests. -/
def exSection (doc : String) (page : Nat) (title content : String) (rel : ℚ)
    (st : String) : ExtractedSection :=
  { document := S doc, page_number := page, section_title := S title,
    content := S content, content_preview := [], relevance_score := rel,
    word_count := (splitWhitespace (S content)).length,
    char_count := (S content).length, section_type := S st,
    key_concepts := [] }

/-- Two sections with identical bodies but different titles. -/
def secIdA : ExtractedSection :=
  exSection "a.pdf" 1 "First Title" "the quick brown fox jumps over a lazy dog" (1/2) "content"

/-- Second section sharing `secIdA`'s body. -/
def secIdB : ExtractedSection :=
  exSection "a.pdf" 2 "Second Title" "the quick brown fox jumps over a lazy dog" (1/2) "content"

/-- Build a small `RankedSection` (only the fields used by
`filter_top_sections` vary). -/
def exRanked (doc : String) (score : ℚ) : RankedSection :=
  { document := S doc, page_number := 1, section_title := [], content := [],
    content_preview := [], importance_rank := 0, relevance_score := 0,
    diversity_bonus := 0, coverage_score := 0, final_score := score,
    word_count := 0, char_count := 0, section_type := S "content",
    key_concepts := [], ranking_factors := [] }

/-- Four ranked sections, three from document `a`, one from document `b`. -/
def rsC2 : List RankedSection :=
  [exRanked "a" 4, exRanked "a" 3, exRanked "a" 2, exRanked "b" 1]

/-- Five ranked sections from two documents, for the diversity-path
witness. -/
def rsC2w : List RankedSection :=
  [exRanked "a" 5, exRanked "a" 4, exRanked "a" 3, exRanked "b" 2,
   exRanked "b" 1]

/-- The content used by the relevance counterexample: more than 30 words,
containing `method` and a numbered-list marker. -/
def contentC3 : Str :=
  (List.replicate 31 (S "word ")).flatten ++ S "method 1."

/-! ### Helper lemmas -/

theorem pymin_eq_min (a b : ℚ) : pymin a b = min a b := by
  simp only [pymin, min_def]

theorem pymax_eq_max (a b : ℚ) : pymax a b = max a b := by
  rcases le_total a b with h | h
  · rw [pymax, max_eq_right h]
    by_cases hba : b ≤ a
    · rw [if_pos hba]
      exact le_antisymm h hba
    · rw [if_neg hba]
  · rw [pymax, max_eq_left h, if_pos h]

theorem le_foldl_add {α : Type} (f : ℚ → α → ℚ) (hstep : ∀ a x, a ≤ f a x) :
    ∀ (l : List α) (a : ℚ), a ≤ l.foldl f a
  | [], a => le_refl a
  | x :: xs, a => le_trans (hstep a x) (le_foldl_add f hstep xs (f a x))

theorem filter_insertionSort {α : Type} (r : α → α → Prop) [DecidableRel r]
    (p : α → Bool) (hp : ∀ a b, p a = true → p b = true → r a b)
    (l : List α) :
    (List.insertionSort r l).filter p = l.filter p := by
  have hpw : (l.filter p).Pairwise r :=
    List.pairwise_of_forall_mem_list (fun a ha b hb =>
      hp a b (List.of_mem_filter ha) (List.of_mem_filter hb))
  have hsub : (l.filter p).Sublist (List.insertionSort r l) :=
    List.sublist_insertionSort hpw (List.filter_sublist l)
  have h2 : ((l.filter p).filter p).Sublist
      ((List.insertionSort r l).filter p) :=
    hsub.filter p
  have h3 : (l.filter p).filter p = l.filter p := by
    rw [List.filter_filter]
    exact List.filter_congr (fun a _ => Bool.and_self (p a))
  rw [h3] at h2
  have h4 : ((List.insertionSort r l).filter p).length = (l.filter p).length :=
    ((List.perm_insertionSort r l).filter p).length_eq
  exact (h2.eq_of_length h4.symm).symm

theorem assignRanks_map_rank (k : Nat) (l : List RankedSection) :
    (assignRanks k l).map (fun s => s.importance_rank)
      = List.range' k l.length := by
  induction l generalizing k with
  | nil => rfl
  | cons x xs ih => simp [assignRanks, List.range', ih]

theorem assignRanks_map_score (k : Nat) (l : List RankedSection) :
    (assignRanks k l).map (fun s => s.final_score)
      = l.map (fun s => s.final_score) := by
  induction l generalizing k with
  | nil => rfl
  | cons x xs ih => simp [assignRanks, ih]

theorem assignRanks_length (k : Nat) (l : List RankedSection) :
    (assignRanks k l).length = l.length := by
  induction l generalizing k with
  | nil => rfl
  | cons x xs ih => simp [assignRanks, ih]

theorem mem_firstDedup {x : Str} {l : List Str} :
    x ∈ firstDedup l ↔ x ∈ l := by
  simp [firstDedup, List.mem_dedup]

theorem firstDedup_nodup (l : List Str) : (firstDedup l).Nodup := by
  simp only [firstDedup, List.nodup_reverse]
  exact List.nodup_dedup _

theorem firstDedup_length_le (l : List Str) :
    (firstDedup l).length ≤ l.length := by
  simp only [firstDedup, List.length_reverse]
  exact le_trans (List.Sublist.length_le (List.dedup_sublist _))
    (le_of_eq (List.length_reverse _))

/-! ### Theorems -/

/-- C1 (amended): the final score equals
`relevance×0.35 + priority_boost(raw) + diversity×0.15 + coverage×0.15 +
(base type importance + intent bonus)×0.05 + length×0.05`; the five weight
coefficients actually applied sum to 0.75, and the configured weights dict
(including the unapplied `priority_boost` weight 0.25) sums to 1.0. -/
theorem final_score_formula (s : ExtractedSection) (ctx : PersonaContext)
    (all_sections : List ExtractedSection) :
    (calculate_section_ranking s ctx all_sections).final_score
      = s.relevance_score * weights_relevance
        + calculate_priority_boost s ctx
        + calculate_diversity_bonus s all_sections * weights_diversity
        + calculate_coverage_score s ctx * weights_coverage
        + (dictGet section_importance s.section_type (5/10)
            + calculate_intent_bonus s ctx) * weights_section_type
        + calculate_length_score s * weights_length
    ∧ weights_relevance + weights_diversity + weights_coverage
        + weights_section_type + weights_length = 3/4
    ∧ weights_relevance + weights_priority_boost + weights_diversity
        + weights_coverage + weights_section_type + weights_length = 1 := by
  refine ⟨?_, by norm_num [weights_relevance, weights_diversity,
    weights_coverage, weights_section_type, weights_length], by
    norm_num [weights_relevance, weights_priority_boost, weights_diversity,
      weights_coverage, weights_section_type, weights_length]⟩
  simp only [calculate_section_ranking]
  ring

/-- C1 counterexample: the five weight coefficients applied to the weighted
terms of the final score sum to 0.75, not 1.0 (the configured
`priority_boost` weight 0.25 is never applied: the boost is added raw). -/
theorem final_score_weights_counterexample :
    weights_relevance + weights_diversity + weights_coverage
      + weights_section_type + weights_length ≠ 1 := by
  norm_num [weights_relevance, weights_diversity, weights_coverage,
    weights_section_type, weights_length]

/-- C10: with an empty priority-topic list the coverage score of every
section is exactly 0.5; with a non-empty list it is the covered fraction of
topics, multiplied by 1.1 when more than one topic is covered, capped
at 1.0. -/
theorem coverage_score_spec (s : ExtractedSection) (ctx : PersonaContext) :
    (ctx.priority_topics = [] → calculate_coverage_score s ctx = 1/2)
    ∧ (ctx.priority_topics ≠ [] →
        calculate_coverage_score s ctx
          = min 1
              (((ctx.priority_topics.countP
                  (fun t => isSubstrOf (pyLower t) (pyLower s.content)) : ℚ)
                / (ctx.priority_topics.length : ℚ))
               * (if 1 < ctx.priority_topics.countP
                    (fun t => isSubstrOf (pyLower t) (pyLower s.content))
                  then 11/10 else 1))) := by
  constructor
  · intro h
    simp [calculate_coverage_score, h]
  · intro h
    simp only [calculate_coverage_score, if_neg h, pymin_eq_min]
    by_cases hc : 1 < ctx.priority_topics.countP
        (fun t => isSubstrOf (pyLower t) (pyLower s.content))
    · simp only [if_pos hc, gt_iff_lt]
    · simp only [if_neg hc, gt_iff_lt, mul_one]

/-- C10 witness: the theorem applied to a concrete section, once with an
empty priority-topic list and once with a two-topic list. -/
theorem coverage_score_spec_witness :
    calculate_coverage_score secIdA ctx0 = 1/2
    ∧ calculate_coverage_score secIdA ctxTopics
        = min 1
            (((ctxTopics.priority_topics.countP
                (fun t => isSubstrOf (pyLower t) (pyLower secIdA.content))) : ℚ)
              / (ctxTopics.priority_topics.length : ℚ)
             * (if 1 < ctxTopics.priority_topics.countP
                  (fun t => isSubstrOf (pyLower t) (pyLower secIdA.content))
                then 11/10 else 1)) :=
  ⟨(coverage_score_spec secIdA ctx0).1 rfl,
   (coverage_score_spec secIdA ctxTopics).2 (by decide)⟩

/-- C8: the derived job intent is always one of the eight labels of the
fixed enumeration; in particular the verb-based fallback label `learning`
is unreachable, because its trigger words (`understand`, `learn`, `study`)
are all trigger substrings of the `preparation` intent pattern checked
first. -/
theorem analyze_job_intent_spec (job_description : Str) :
    analyze_job_intent job_description ∈
      [S "comprehensive_review", S "summary", S "comparison", S "analysis",
       S "extraction", S "preparation", S "implementation", S "optimization"]
    ∧ analyze_job_intent job_description ≠ S "learning" := by
  cases hf : intent_patterns.find?
      (fun p => p.2.any (fun pat => isSubstrOf pat (pyLower job_description))) with
  | some p =>
    have heq : analyze_job_intent job_description = p.1 := by
      unfold analyze_job_intent
      simp only [hf]
    rw [heq]
    have hmem : p ∈ intent_patterns := List.mem_of_find?_eq_some hf
    simp only [intent_patterns, List.mem_cons, List.not_mem_nil, or_false] at hmem
    rcases hmem with h|h|h|h|h|h|h|h <;> subst h <;> exact ⟨by decide, by decide⟩
  | none =>
    have heq : analyze_job_intent job_description =
        (if ([S "prepare", S "create", S "write"].any
            (fun v => isSubstrOf v (pyLower job_description))) = true then
          S "preparation"
        else if ([S "understand", S "learn", S "study"].any
            (fun v => isSubstrOf v (pyLower job_description))) = true then
          S "learning"
        else S "analysis") := by
      unfold analyze_job_intent
      simp only [hf]
    rw [heq]
    have hall := List.find?_eq_none.mp hf
    have hprep : ¬ ([S "prepare", S "study", S "learn", S "understand",
        S "review", S "plan", S "develop", S "create", S "design"].any
          (fun pat => isSubstrOf pat (pyLower job_description)) = true) := by
      have := hall (S "preparation",
        [S "prepare", S "study", S "learn", S "understand", S "review",
         S "plan", S "develop", S "create", S "design"]) (by simp [intent_patterns])
      simpa using this
    simp only [List.any_eq_true, List.mem_cons, List.not_mem_nil, or_false,
      not_exists, not_and] at hprep
    have hlearn : ¬ ([S "understand", S "learn", S "study"].any
        (fun v => isSubstrOf v (pyLower job_description)) = true) := by
      simp only [List.any_eq_true, List.mem_cons, List.not_mem_nil, or_false,
        not_exists, not_and]
      intro v hv
      rcases hv with h|h|h <;> subst h
      · exact hprep _ (by simp)
      · exact hprep _ (by simp)
      · exact hprep _ (by simp)
    by_cases hpc : [S "prepare", S "create", S "write"].any
        (fun v => isSubstrOf v (pyLower job_description)) = true
    · rw [if_pos hpc]
      exact ⟨by decide, by decide⟩
    · rw [if_neg hpc, if_neg hlearn]
      exact ⟨by decide, by decide⟩

theorem similarity_self (t : Str) (ht : findAlphaTokens (pyLower t) ≠ []) :
    calculate_text_similarity t t = 1 := by
  have htne : t ≠ [] := by
    intro h
    subst h
    exact ht rfl
  unfold calculate_text_similarity
  rw [if_neg (by simp [htne])]
  have hFne : (findAlphaTokens (pyLower t)).toFinset ≠ ∅ := by
    simpa using ht
  rw [if_neg (by simp [hFne])]
  simp only [Finset.inter_self, Finset.union_self]
  have hcard : 0 < (findAlphaTokens (pyLower t)).toFinset.card :=
    Finset.card_pos.mpr (Finset.nonempty_iff_ne_empty.mpr hFne)
  rw [if_pos hcard]
  have : ((findAlphaTokens (pyLower t)).toFinset.card : ℚ) ≠ 0 := by
    exact_mod_cast Nat.pos_iff_ne_zero.mp hcard
  field_simp

/-- C9 (amended): in a two-section batch, two sections with identical
bodies that are not equal as whole records (so that the `!=` test keeps the
other section), and whose shared body contains at least one alphabetic
token of length ≥ 3, each receive a diversity bonus of exactly 0.0.  (Two
entirely identical records are skipped by the `!=` test and each would
receive 1.0 instead, as the counterexample shows.) -/
theorem diversity_identical_bodies (s1 s2 : ExtractedSection)
    (hne : s1 ≠ s2) (hcontent : s1.content = s2.content)
    (htok : findAlphaTokens (pyLower s1.content) ≠ []) :
    calculate_diversity_bonus s1 [s1, s2] = 0
    ∧ calculate_diversity_bonus s2 [s1, s2] = 0 := by
  have hne2 : s2 ≠ s1 := fun h => hne h.symm
  have hsim : calculate_text_similarity s1.content s2.content = 1 := by
    rw [← hcontent]
    exact similarity_self _ htok
  have hsim2 : calculate_text_similarity s2.content s1.content = 1 := by
    rw [← hcontent] at hsim ⊢
    exact similarity_self _ htok
  constructor
  · unfold calculate_diversity_bonus
    rw [if_neg (by simp)]
    have hfil : [s1, s2].filter (fun o => decide (o ≠ s1)) = [s2] := by
      simp [List.filter, hne2]
    simp only [hfil, List.map_cons, List.map_nil, hsim]
    norm_num [pymin, pymax]
  · unfold calculate_diversity_bonus
    rw [if_neg (by simp)]
    have hfil : [s1, s2].filter (fun o => decide (o ≠ s2)) = [s1] := by
      simp [List.filter, hne]
    simp only [hfil, List.map_cons, List.map_nil, hsim2]
    norm_num [pymin, pymax]

/-- C9 counterexample: a two-section batch whose two entries are the same
record (identical bodies included) gives each a diversity bonus of 1.0, not
0.0 — the `!=` test removes every comparison partner. -/
theorem diversity_counterexample :
    calculate_diversity_bonus secIdA [secIdA, secIdA] = 1
    ∧ (1 : ℚ) ≠ 0 := by
  constructor
  · unfold calculate_diversity_bonus
    rw [if_neg (by simp)]
    have hfil : [secIdA, secIdA].filter (fun o => decide (o ≠ secIdA)) = [] := by
      simp [List.filter]
    simp [hfil]
  · norm_num

/-- C9 witness: the amended theorem applied to the two concrete sections
with identical bodies and different titles. -/
theorem diversity_identical_bodies_witness :
    calculate_diversity_bonus secIdA [secIdA, secIdB] = 0
    ∧ calculate_diversity_bonus secIdB [secIdA, secIdB] = 0 :=
  diversity_identical_bodies secIdA secIdB (by decide) (by decide) (by decide)

theorem ceil_div_split (m n : Nat) (hn : 0 < n) :
    (m + n - 1) / n = m / n + (if m % n = 0 then 0 else 1) := by
  have hdm := Nat.div_add_mod m n
  have hr : m % n < n := Nat.mod_lt _ hn
  by_cases h0 : m % n = 0
  · rw [h0, if_pos rfl, Nat.add_zero]
    have h1 : m + n - 1 = n * (m / n) + (n - 1) := by
      conv_lhs => rw [← hdm, h0, Nat.add_zero]
      exact Nat.add_sub_assoc hn _
    have h2 : (n - 1) / n = 0 := Nat.div_eq_of_lt (by omega)
    rw [h1, Nat.mul_add_div hn (m / n) (n - 1), h2, Nat.add_zero]
  · rw [if_neg h0]
    have h1 : m + n - 1 = n * (m / n) + (m % n + n - 1) := by
      conv_lhs => rw [← hdm]
      rw [Nat.add_assoc]
      exact Nat.add_sub_assoc (by omega) _
    have h2 : (m % n + n - 1) / n = 1 :=
      Nat.div_eq_of_lt_le (by omega) (by omega)
    rw [h1, Nat.mul_add_div hn (m / n) (m % n + n - 1), h2]

theorem countP_doc_flatMap_le (sections : List RankedSection)
    (alloc : Nat × Str → Nat) (C : Nat) (d : Str) :
    ∀ (docs : List (Nat × Str)), (docs.map Prod.snd).Nodup →
      (∀ p ∈ docs, alloc p ≤ C) →
      (docs.flatMap (fun p =>
          (sections.filter (fun s => s.document = p.2)).take (alloc p))).countP
        (fun s => s.document = d) ≤ C
  | [], _, _ => by simp
  | p :: ps, hnd, hal => by
    rw [List.map_cons] at hnd
    have hnd2 := List.nodup_cons.mp hnd
    simp only [List.flatMap_cons, List.countP_append]
    by_cases hd : d = p.2
    · have h1 : ((sections.filter (fun s => s.document = p.2)).take
          (alloc p)).countP (fun s => s.document = d) ≤ C :=
        le_trans (List.countP_le_length _)
          (le_trans (List.length_take_le _ _) (hal p (List.mem_cons_self p ps)))
      have h2 : (ps.flatMap (fun q =>
          (sections.filter (fun s => s.document = q.2)).take
            (alloc q))).countP (fun s => s.document = d) = 0 := by
        rw [List.countP_eq_zero]
        intro a ha
        obtain ⟨q, hq, ha2⟩ := List.mem_flatMap.mp ha
        have hmem : a ∈ sections.filter (fun s => decide (s.document = q.2)) :=
          List.mem_of_mem_take ha2
        have haq : a.document = q.2 := by
          simpa using List.of_mem_filter hmem
        simp only [decide_eq_true_eq]
        intro had
        apply hnd2.1
        have hpq : p.2 = q.2 := by rw [← hd, ← had, haq]
        rw [hpq]
        exact List.mem_map_of_mem _ hq
      omega
    · have h1 : ((sections.filter (fun s => s.document = p.2)).take
          (alloc p)).countP (fun s => s.document = d) = 0 := by
        rw [List.countP_eq_zero]
        intro a ha
        have hmem : a ∈ sections.filter (fun s => decide (s.document = p.2)) :=
          List.mem_of_mem_take ha
        have haq : a.document = p.2 := by
          simpa using List.of_mem_filter hmem
        simp only [decide_eq_true_eq]
        intro had
        exact hd (had ▸ haq)
      have h2 := countP_doc_flatMap_le sections alloc C d ps hnd2.2 (fun q hq =>
        hal q (List.mem_cons_of_mem p hq))
      omega

/-- C2 (amended): `filter_top_sections` never returns more than `max_count`
sections; and whenever the number of sections surviving the `min_score`
filter exceeds `max_count` (the only case where `_ensure_document_diversity`
enforces anything), no single source document contributes more than
`⌈max_count / num_documents⌉` of the returned sections, `num_documents`
being the number of distinct source documents among the survivors.  (When
the survivors already fit within `max_count` they are returned as-is and
the per-document bound can fail, as the counterexample shows.) -/
theorem filter_top_sections_spec (ranked_sections : List RankedSection)
    (max_sections : Nat) (min_score_threshold : ℚ) :
    (filter_top_sections ranked_sections max_sections
        min_score_threshold).length ≤ max_sections
    ∧ (max_sections <
        (ranked_sections.filter
          (fun s => min_score_threshold ≤ s.final_score)).length →
       ∀ d : Str,
         (filter_top_sections ranked_sections max_sections
             min_score_threshold).countP (fun s => s.document = d)
           ≤ (max_sections
               + (firstDedup ((ranked_sections.filter
                    (fun s => min_score_threshold ≤ s.final_score)).map
                      (fun s => s.document))).length - 1)
             / (firstDedup ((ranked_sections.filter
                  (fun s => min_score_threshold ≤ s.final_score)).map
                    (fun s => s.document))).length) := by
  have hmain : ∀ (sections : List RankedSection),
      max_sections < sections.length → ∀ d : Str,
      (ensure_document_diversity sections max_sections).countP
          (fun s => s.document = d)
        ≤ (max_sections
            + (firstDedup (sections.map (fun s => s.document))).length - 1)
          / (firstDedup (sections.map (fun s => s.document))).length := by
    intro sections hlen d
    have heq : ensure_document_diversity sections max_sections
        = List.insertionSort scoreDescRel
            ((firstDedup (sections.map (fun s => s.document))).enum.flatMap
              (fun p => (sections.filter (fun s => s.document = p.2)).take
                (max_sections
                    / (firstDedup (sections.map (fun s => s.document))).length
                  + if p.1 < max_sections
                      % (firstDedup (sections.map (fun s => s.document))).length
                    then 1 else 0))) := by
      unfold ensure_document_diversity
      rw [if_neg (not_le.mpr hlen)]
    rw [heq]
    have hfne : sections ≠ [] := by
      intro h
      rw [h] at hlen
      simp at hlen
    have hdocs_pos :
        0 < (firstDedup (sections.map (fun s => s.document))).length := by
      rw [List.length_pos]
      intro h
      obtain ⟨x, hx⟩ := List.exists_mem_of_ne_nil sections hfne
      have hxm : x.document ∈ firstDedup (sections.map (fun s => s.document)) :=
        mem_firstDedup.mpr (List.mem_map_of_mem _ hx)
      rw [h] at hxm
      exact List.not_mem_nil _ hxm
    have hperm := List.perm_insertionSort scoreDescRel
      ((firstDedup (sections.map (fun s => s.document))).enum.flatMap
        (fun p => (sections.filter (fun s => s.document = p.2)).take
          (max_sections
              / (firstDedup (sections.map (fun s => s.document))).length
            + if p.1 < max_sections
                % (firstDedup (sections.map (fun s => s.document))).length
              then 1 else 0)))
    rw [hperm.countP_eq]
    apply countP_doc_flatMap_le sections _ _ d
    · rw [List.enum_map_snd]
      exact firstDedup_nodup _
    · intro p _
      rw [ceil_div_split _ _ hdocs_pos]
      by_cases hp : p.1 < max_sections
          % (firstDedup (sections.map (fun s => s.document))).length
      · rw [if_pos hp]
        have hm0 : max_sections
            % (firstDedup (sections.map (fun s => s.document))).length ≠ 0 := by
          omega
        rw [if_neg hm0]
      · rw [if_neg hp]
        split <;> omega
  constructor
  · exact List.length_take_le _ _
  · intro hlen d
    have htake : filter_top_sections ranked_sections max_sections
          min_score_threshold
        = (ensure_document_diversity
            (ranked_sections.filter
              (fun s => min_score_threshold ≤ s.final_score))
            max_sections).take max_sections := rfl
    rw [htake]
    exact le_trans
      (List.Sublist.countP_le _ (List.take_sublist _ _))
      (hmain _ hlen d)

/-- C2 counterexample: four surviving sections (three from document `a`,
one from document `b`) with `max_count = 4` fit within `max_count`, so the
diversity pass returns them unchanged: document `a` contributes 3 sections,
exceeding `⌈4/2⌉ = 2`. -/
theorem filter_top_sections_counterexample :
    (filter_top_sections rsC2 4 0).countP (fun s => s.document = S "a") = 3
    ∧ (firstDedup ((rsC2.filter (fun s => (0 : ℚ) ≤ s.final_score)).map
        (fun s => s.document))).length = 2
    ∧ ¬ ((filter_top_sections rsC2 4 0).countP (fun s => s.document = S "a")
          ≤ (4 + 2 - 1) / 2) := by decide

/-- C2 witness: the amended theorem applied to five concrete sections from
two documents with `max_count = 2`. -/
theorem filter_top_sections_spec_witness :
    (filter_top_sections rsC2w 2 0).countP (fun s => s.document = S "a")
      ≤ (2 + (firstDedup ((rsC2w.filter
            (fun s => (0 : ℚ) ≤ s.final_score)).map
              (fun s => s.document))).length - 1)
        / (firstDedup ((rsC2w.filter
            (fun s => (0 : ℚ) ≤ s.final_score)).map
              (fun s => s.document))).length :=
  (filter_top_sections_spec rsC2w 2 0).2 (by decide) (S "a")

/-- C4: for a non-empty input of N sections, `rank_sections` returns N
ranked sections whose `importance_rank` values are exactly `1..N` in list
order, whose final scores are descending, and whose order is that of the
stable descending sort of the scored sections — for every score value, the
sections carrying that score appear in their original encounter order
(Python's `list.sort` is stable, and `List.insertionSort` with
`scoreDescRel` is the stable descending sort it performs). -/
theorem rank_sections_spec (sections : List ExtractedSection)
    (ctx : PersonaContext) (hne : sections ≠ []) :
    (rank_sections sections ctx).length = sections.length
    ∧ (rank_sections sections ctx).map (fun s => s.importance_rank)
        = List.range' 1 sections.length
    ∧ List.Pairwise (fun a b : ℚ => b ≤ a)
        ((rank_sections sections ctx).map (fun s => s.final_score))
    ∧ rank_sections sections ctx
        = assignRanks 1 (List.insertionSort scoreDescRel
            (sections.map (fun s => calculate_section_ranking s ctx sections)))
    ∧ ∀ q : ℚ,
        (List.insertionSort scoreDescRel
            (sections.map
              (fun s => calculate_section_ranking s ctx sections))).filter
          (fun s => s.final_score = q)
        = (sections.map
            (fun s => calculate_section_ranking s ctx sections)).filter
            (fun s => s.final_score = q) := by
  have heq : rank_sections sections ctx
      = assignRanks 1 (List.insertionSort scoreDescRel
          (sections.map (fun s => calculate_section_ranking s ctx sections))) := by
    unfold rank_sections
    rw [if_neg hne]
  refine ⟨?_, ?_, ?_, heq, ?_⟩
  · rw [heq, assignRanks_length, (List.perm_insertionSort _ _).length_eq,
      List.length_map]
  · rw [heq, assignRanks_map_rank, (List.perm_insertionSort _ _).length_eq,
      List.length_map]
  · rw [heq, assignRanks_map_score, List.pairwise_map]
    exact List.sorted_insertionSort scoreDescRel _
  · intro q
    refine filter_insertionSort scoreDescRel (fun s => s.final_score = q)
      (fun a b ha hb => ?_) _
    have h1 : a.final_score = q := of_decide_eq_true ha
    have h2 : b.final_score = q := of_decide_eq_true hb
    show b.final_score ≤ a.final_score
    rw [h1, h2]

/-- C4 witness: the theorem applied to a concrete one-section batch. -/
theorem rank_sections_spec_witness :
    (rank_sections [secIdA] ctx0).map (fun s => s.importance_rank)
      = List.range' 1 [secIdA].length :=
  (rank_sections_spec [secIdA] ctx0 (by simp)).2.1

theorem relevance_enhanced_bounds (content title : Str)
    (ctx : PersonaContext) :
    0 ≤ calculate_relevance_score_enhanced content title ctx
    ∧ calculate_relevance_score_enhanced content title ctx ≤ 1 := by
  simp only [calculate_relevance_score_enhanced, pymin_eq_min]
  constructor
  · apply le_min (by norm_num)
    apply add_nonneg (add_nonneg ?_ ?_) ?_
    · split
      · refine le_foldl_add _ (fun a x => ?_) _ 0
        have h1 : (0 : ℚ) ≤ if isSubstrOf (pyLower x) (pyLower content)
            then 1/10 else 0 := by split <;> norm_num
        have h2 : (0 : ℚ) ≤ if isSubstrOf (pyLower x) (pyLower title)
            then 2/10 else 0 := by split <;> norm_num
        linarith
      · exact le_refl 0
    · split
      · refine le_foldl_add _ (fun a x => ?_) _ 0
        have h1 : (0 : ℚ) ≤ if isSubstrOf (pyLower x) (pyLower content)
            then 3/20 else 0 := by split <;> norm_num
        have h2 : (0 : ℚ) ≤ if isSubstrOf (pyLower x) (pyLower title)
            then 5/20 else 0 := by split <;> norm_num
        linarith
      · exact le_refl 0
    · have h1 : (0 : ℚ) ≤ if (splitWhitespace content).length > 30
          then 1/10 else 0 := by split <;> norm_num
      have h2 : (0 : ℚ) ≤ if [S "ingredients", S "instructions", S "method",
          S "procedure"].any (fun ind => isSubstrOf ind (pyLower content))
          then 3/20 else 0 := by split <;> norm_num
      have h3 : (0 : ℚ) ≤ if hasRelStructure content then 1/10 else 0 := by
        split <;> norm_num
      linarith
  · exact min_le_left _ _

/-- C5: every section the enhanced creator produces has a body of at least
`min_section_length` (= 100) characters and a relevance score in `[0, 1]`;
content shorter than the minimum is discarded at creation (`None`). -/
theorem section_invariants (content filename : Str) (page_number : Nat)
    (title : Str) (ctx : PersonaContext) :
    (∀ sec, create_section_from_text_enhanced content filename page_number
        title ctx = some sec →
      min_section_length ≤ sec.content.length
      ∧ sec.char_count = sec.content.length
      ∧ 0 ≤ sec.relevance_score ∧ sec.relevance_score ≤ 1)
    ∧ (content.length < min_section_length →
        create_section_from_text_enhanced content filename page_number title
          ctx = none) := by
  constructor
  · intro sec hsec
    simp only [create_section_from_text_enhanced] at hsec
    by_cases hlen : content.length < min_section_length
    · rw [if_pos hlen] at hsec
      exact absurd hsec (by simp)
    · rw [if_neg hlen] at hsec
      have hrec := Option.some.inj hsec
      subst hrec
      refine ⟨?_, rfl, (relevance_enhanced_bounds _ _ ctx).1,
        (relevance_enhanced_bounds _ _ ctx).2⟩
      show min_section_length ≤
        (if content.length > max_section_length
         then content.take max_section_length ++ S "..."
         else content).length
      split
      · rw [List.length_append, List.length_take]
        have : content.length > max_section_length := by assumption
        simp only [min_section_length, max_section_length] at *
        omega
      · simp only [min_section_length] at *
        omega
  · intro h
    simp only [create_section_from_text_enhanced]
    rw [if_pos h]

/-- C5 witness: the theorem applied to a concrete 164-character content. -/
theorem section_invariants_witness :
    min_section_length ≤
      ((create_section_from_text_enhanced contentC3 (S "doc.pdf") 1
          (S "Methodology Overview") ctx0).getD default).content.length
    ∧ ((create_section_from_text_enhanced contentC3 (S "doc.pdf") 1
          (S "Methodology Overview") ctx0).getD default).char_count
        = ((create_section_from_text_enhanced contentC3 (S "doc.pdf") 1
            (S "Methodology Overview") ctx0).getD default).content.length
    ∧ 0 ≤ ((create_section_from_text_enhanced contentC3 (S "doc.pdf") 1
          (S "Methodology Overview") ctx0).getD default).relevance_score
    ∧ ((create_section_from_text_enhanced contentC3 (S "doc.pdf") 1
          (S "Methodology Overview") ctx0).getD default).relevance_score ≤ 1 :=
  (section_invariants contentC3 (S "doc.pdf") 1 (S "Methodology Overview")
      ctx0).1
    ((create_section_from_text_enhanced contentC3 (S "doc.pdf") 1
        (S "Methodology Overview") ctx0).getD default)
    (by with_unfolding_all decide)

/-- C3 (amended): the relevance score stored in every created section is
the one computed by `_calculate_relevance_score_enhanced` on the stored
(truncated) content and generated title, and lies in `[0, 1]`; the
four-term 0.4/0.3/0.2/0.1 formula lives in the legacy
`_calculate_relevance_score`, which the enhanced creation path never
calls. -/
theorem created_relevance_is_enhanced (content filename : Str)
    (page_number : Nat) (title : Str) (ctx : PersonaContext)
    (sec : ExtractedSection)
    (h : create_section_from_text_enhanced content filename page_number title
        ctx = some sec) :
    sec.relevance_score
      = calculate_relevance_score_enhanced sec.content sec.section_title ctx
    ∧ 0 ≤ sec.relevance_score ∧ sec.relevance_score ≤ 1 := by
  simp only [create_section_from_text_enhanced] at h
  by_cases hlen : content.length < min_section_length
  · rw [if_pos hlen] at h
    exact absurd h (by simp)
  · rw [if_neg hlen] at h
    have hrec := Option.some.inj h
    subst hrec
    exact ⟨rfl, (relevance_enhanced_bounds _ _ ctx).1,
      (relevance_enhanced_bounds _ _ ctx).2⟩

/-- C3 counterexample: a concrete created section whose stored relevance is
0.35 (from the enhanced scoring: substantial word count, `method`
indicator, numbered-list marker) while the four-term weighted formula of
`_calculate_relevance_score` yields 0 on the same content and persona
context. -/
theorem created_relevance_counterexample :
    (create_section_from_text_enhanced contentC3 (S "doc.pdf") 1
        (S "Methodology Overview") ctx0).isSome = true
    ∧ ((create_section_from_text_enhanced contentC3 (S "doc.pdf") 1
          (S "Methodology Overview") ctx0).getD default).relevance_score
        = 7/20
    ∧ calculate_relevance_score
        ((create_section_from_text_enhanced contentC3 (S "doc.pdf") 1
            (S "Methodology Overview") ctx0).getD default).content ctx0 = 0
    ∧ ((create_section_from_text_enhanced contentC3 (S "doc.pdf") 1
          (S "Methodology Overview") ctx0).getD default).relevance_score
        ≠ calculate_relevance_score
            ((create_section_from_text_enhanced contentC3 (S "doc.pdf") 1
                (S "Methodology Overview") ctx0).getD default).content
            ctx0 := by
  refine ⟨by with_unfolding_all decide, by with_unfolding_all decide,
    by with_unfolding_all decide, by with_unfolding_all decide⟩

/-- C3 witness: the amended theorem applied to the concrete section. -/
theorem created_relevance_is_enhanced_witness :
    ((create_section_from_text_enhanced contentC3 (S "a.pdf") 2
        (S "Methodology Overview") ctx0).getD default).relevance_score
      = calculate_relevance_score_enhanced
          ((create_section_from_text_enhanced contentC3 (S "a.pdf") 2
              (S "Methodology Overview") ctx0).getD default).content
          ((create_section_from_text_enhanced contentC3 (S "a.pdf") 2
              (S "Methodology Overview") ctx0).getD default).section_title
          ctx0 :=
  (created_relevance_is_enhanced contentC3 (S "a.pdf") 2
      (S "Methodology Overview") ctx0
      ((create_section_from_text_enhanced contentC3 (S "a.pdf") 2
          (S "Methodology Overview") ctx0).getD default)
      (by with_unfolding_all decide)).1

theorem firstDedup_append_singleton (l : List Str) (x : Str) :
    firstDedup (l ++ [x])
      = if x ∈ l then firstDedup l else firstDedup l ++ [x] := by
  simp only [firstDedup, List.reverse_append, List.reverse_cons,
    List.reverse_nil, List.nil_append, List.singleton_append]
  by_cases hx : x ∈ l
  · rw [List.dedup_cons_of_mem (by simpa using hx), if_pos hx]
  · rw [List.dedup_cons_of_not_mem (by simpa using hx), if_neg hx,
      List.reverse_cons]

theorem bumpFreq_map_mem (f : Str → Nat) (x : Str) :
    ∀ (keys : List Str), x ∈ keys → keys.Nodup →
      bumpFreq x (keys.map (fun w => (w, f w)))
        = keys.map (fun w => (w, if w = x then f w + 1 else f w))
  | [], h, _ => absurd h (List.not_mem_nil x)
  | k :: ks, h, hnd => by
    simp only [List.map_cons, bumpFreq]
    by_cases hk : k = x
    · rw [if_pos hk, hk, if_pos rfl]
      have hxks : x ∉ ks := by
        rw [← hk]
        exact (List.nodup_cons.mp hnd).1
      congr 1
      apply List.map_congr_left
      intro w hw
      rw [if_neg (fun hwx => hxks (by rw [← hwx]; exact hw))]
    · rw [if_neg hk, if_neg hk,
        bumpFreq_map_mem f x ks
          ((List.mem_cons.mp h).resolve_left (fun he => hk he.symm))
          (List.nodup_cons.mp hnd).2]

theorem bumpFreq_map_not_mem (f : Str → Nat) (x : Str) :
    ∀ (keys : List Str), x ∉ keys →
      bumpFreq x (keys.map (fun w => (w, f w)))
        = keys.map (fun w => (w, f w)) ++ [(x, 1)]
  | [], _ => rfl
  | k :: ks, h => by
    simp only [List.map_cons, bumpFreq, List.cons_append]
    rw [if_neg (fun hkx => h (by rw [← hkx]; exact List.mem_cons_self k ks)),
      bumpFreq_map_not_mem f x ks (fun hx => h (List.mem_cons_of_mem _ hx))]

theorem buildFreq_eq (l : List Str) :
    buildFreq l = (firstDedup l).map (fun w => (w, l.count w)) := by
  induction l using List.reverseRecOn with
  | nil => rfl
  | append_singleton l x ih =>
    have hstep : buildFreq (l ++ [x]) = bumpFreq x (buildFreq l) := by
      simp [buildFreq, List.foldl_append]
    rw [hstep, ih, firstDedup_append_singleton]
    by_cases hx : x ∈ l
    · rw [if_pos hx,
        bumpFreq_map_mem (fun w => l.count w) x (firstDedup l)
          (mem_firstDedup.mpr hx) (firstDedup_nodup l)]
      apply List.map_congr_left
      intro w _
      by_cases hwx : w = x
      · subst hwx
        simp [List.count_append]
      · simp [List.count_append, hwx]
    · rw [if_neg hx,
        bumpFreq_map_not_mem (fun w => l.count w) x (firstDedup l)
          (fun h => hx (mem_firstDedup.mp h)),
        List.map_append]
      congr 1
      · apply List.map_congr_left
        intro w hw
        have hwx : w ≠ x := fun h => hx (h ▸ mem_firstDedup.mp hw)
        simp [List.count_append, hwx]
      · simp [List.count_append, List.count_eq_zero_of_not_mem hx]

theorem map_fst_map_pair (l : List Str) (g : Str → Nat) :
    (l.map (fun w => (w, g w))).map Prod.fst = l := by
  induction l with
  | nil => rfl
  | cons x xs ih => simp [ih]

theorem map_orderedInsert_count (kept : List Str) (a : Str) :
    ∀ (D : List Str),
      List.orderedInsert (fun p q : Str × Nat => q.2 ≤ p.2)
          (a, kept.count a) (D.map (fun w => (w, kept.count w)))
        = (List.orderedInsert
            (fun u v : Str => kept.count v ≤ kept.count u) a D).map
            (fun w => (w, kept.count w))
  | [] => rfl
  | b :: D => by
    simp only [List.map_cons, List.orderedInsert]
    by_cases h : kept.count b ≤ kept.count a
    · rw [if_pos h, if_pos h]
      simp
    · rw [if_neg h, if_neg h]
      simp only [List.map_cons]
      rw [← map_orderedInsert_count kept a D]

theorem map_insertionSort_count (kept : List Str) :
    ∀ (D : List Str),
      List.insertionSort (fun p q : Str × Nat => q.2 ≤ p.2)
          (D.map (fun w => (w, kept.count w)))
        = (List.insertionSort
            (fun u v : Str => kept.count v ≤ kept.count u) D).map
            (fun w => (w, kept.count w))
  | [] => rfl
  | a :: D => by
    simp only [List.insertionSort, List.map_cons]
    rw [map_insertionSort_count kept D, map_orderedInsert_count]

/-- C7 (amended): `extract_keywords` returns at most `max_keywords` terms,
namely the distinct lowercased alphabetic tokens of length greater than 3
(tokens of exactly 3 letters are dropped by the `len(word) > 3` filter)
that are not stop words, in first-seen order stable-sorted by raw
occurrence frequency descending. -/
theorem extract_keywords_spec (text : Str) (max_keywords : Nat) :
    extract_keywords text max_keywords
      = extract_keywords_amended text max_keywords
    ∧ (extract_keywords text max_keywords).length ≤ max_keywords
    ∧ (extract_keywords text max_keywords).Nodup
    ∧ List.Pairwise (fun a b =>
        ((findAlphaTokens (pyLower text)).filter
            (fun w => w ∉ stop_words ∧ w.length > 3)).count b
          ≤ ((findAlphaTokens (pyLower text)).filter
              (fun w => w ∉ stop_words ∧ w.length > 3)).count a)
        (extract_keywords text max_keywords) := by
  have heq : extract_keywords text max_keywords
      = extract_keywords_amended text max_keywords := by
    simp only [extract_keywords, extract_keywords_amended]
    by_cases ht : text = []
    · rw [if_pos ht, if_pos ht]
    · rw [if_neg ht, if_neg ht, buildFreq_eq, map_insertionSort_count,
        List.map_take, map_fst_map_pair]
  refine ⟨heq, ?_, ?_, ?_⟩
  · simp only [extract_keywords]
    split
    · simp
    · simp only [List.length_map]
      exact List.length_take_le _ _
  · rw [heq]
    simp only [extract_keywords_amended]
    split
    · exact List.nodup_nil
    · exact List.Nodup.sublist (List.take_sublist _ _)
        (((List.perm_insertionSort _ _).nodup_iff).mpr (firstDedup_nodup _))
  · rw [heq]
    simp only [extract_keywords_amended]
    split
    · exact List.Pairwise.nil
    · haveI : IsTotal Str (fun a b : Str =>
          ((findAlphaTokens (pyLower text)).filter
              (fun w => w ∉ stop_words ∧ w.length > 3)).count b
            ≤ ((findAlphaTokens (pyLower text)).filter
                (fun w => w ∉ stop_words ∧ w.length > 3)).count a) :=
        ⟨fun a b => le_total _ _⟩
      haveI : IsTrans Str (fun a b : Str =>
          ((findAlphaTokens (pyLower text)).filter
              (fun w => w ∉ stop_words ∧ w.length > 3)).count b
            ≤ ((findAlphaTokens (pyLower text)).filter
                (fun w => w ∉ stop_words ∧ w.length > 3)).count a) :=
        ⟨fun _ _ _ hab hbc => le_trans hbc hab⟩
      exact List.Pairwise.sublist (List.take_sublist _ _)
        (List.sorted_insertionSort _ _)

/-- C7 counterexample: on `"cat cat"` the implementation returns no
keywords (the `len(word) > 3` filter drops every 3-letter token), while the
claim's "length at least 3" reading returns `["cat"]`. -/
theorem extract_keywords_counterexample :
    extract_keywords (S "cat cat") 5 = []
    ∧ extract_keywords_claimed (S "cat cat") 5 = [S "cat"]
    ∧ extract_keywords (S "cat cat") 5
        ≠ extract_keywords_claimed (S "cat cat") 5 := by
  refine ⟨by decide, by decide, by decide⟩

theorem extract_keywords_length_le (text : Str) (k : Nat) :
    (extract_keywords text k).length ≤ k := by
  simp only [extract_keywords]
  split
  · simp
  · simp only [List.length_map]
    exact List.length_take_le _ _

theorem section_mapping_entry_length :
    ∀ p ∈ section_mapping, p.2.length ≤ 6 := by decide

/-- C6 (amended): the persona-context list outputs are deterministic as
sets but not as lists: for any two valid set-enumeration orders (any
functions returning a permutation of the distinct elements, as Python's
hash-randomized set iteration does), the job-keyword, priority-topic and
relevant-section-type lists produced in two runs are permutations of each
other — the same elements, possibly in different orders (and the order can
differ, as the counterexample shows, which also reorders downstream
ranking inputs). -/
theorem set_order_determinism (enum₁ enum₂ : List Str → List Str)
    (h₁ : ∀ l, (enum₁ l).Perm (firstDedup l))
    (h₂ : ∀ l, (enum₂ l).Perm (firstDedup l))
    (persona job_description job_intent domain : Str) :
    (extract_job_keywords enum₁ job_description).Perm
      (extract_job_keywords enum₂ job_description)
    ∧ (determine_priority_topics enum₁ persona job_description).Perm
        (determine_priority_topics enum₂ persona job_description)
    ∧ (identify_relevant_sections enum₁ job_intent domain).Perm
        (identify_relevant_sections enum₂ job_intent domain) := by
  refine ⟨?_, ?_, ?_⟩
  · simp only [extract_job_keywords]
    have hk : (firstDedup (extract_keywords job_description 15)).length ≤ 20 :=
      le_trans (firstDedup_length_le _)
        (le_trans (extract_keywords_length_le _ _) (by norm_num))
    rw [List.take_of_length_le (le_trans (le_of_eq (h₁ _).length_eq) hk),
      List.take_of_length_le (le_trans (le_of_eq (h₂ _).length_eq) hk)]
    exact (h₁ _).trans (h₂ _).symm
  · simp only [determine_priority_topics]
    have hk : (firstDedup ((extract_keywords
        (persona ++ [' '] ++ job_description) 15).map pyLower)).length ≤ 20 := by
      refine le_trans (firstDedup_length_le _) ?_
      rw [List.length_map]
      exact le_trans (extract_keywords_length_le _ _) (by norm_num)
    rw [List.take_of_length_le
        (le_trans (List.length_filter_le _ _)
          (le_trans (le_of_eq (h₁ _).length_eq) hk)),
      List.take_of_length_le
        (le_trans (List.length_filter_le _ _)
          (le_trans (le_of_eq (h₂ _).length_eq) hk))]
    exact ((h₁ _).filter _).trans (((h₂ _).filter _).symm)
  · simp only [identify_relevant_sections]
    have hbase : (dictGet section_mapping job_intent
        [S "introduction", S "results", S "conclusion"]).length ≤ 6 := by
      simp only [dictGet]
      cases hf : section_mapping.find? (fun p => p.1 = job_intent) with
      | none => simp
      | some p =>
        simp only []
        exact section_mapping_entry_length p (List.mem_of_find?_eq_some hf)
    have hk : (firstDedup (dictGet section_mapping job_intent
        [S "introduction", S "results", S "conclusion"]
          ++ universal_sections)).length ≤ 15 := by
      refine le_trans (firstDedup_length_le _) ?_
      rw [List.length_append]
      have : universal_sections.length = 6 := by decide
      omega
    rw [List.take_of_length_le (le_trans (le_of_eq (h₁ _).length_eq) hk),
      List.take_of_length_le (le_trans (le_of_eq (h₂ _).length_eq) hk)]
    exact (h₁ _).trans (h₂ _).symm

/-- C6 counterexample: with the job text `"analyze revenue trends"`, two
valid set-enumeration orders (first-seen order and its reverse — both
permutations of the distinct keywords, as two differently-seeded Python
processes may produce) yield job-keyword lists that contain the same
elements but differ as lists, so the pipeline's list outputs are not
identical across runs. -/
theorem set_order_counterexample :
    extract_job_keywords firstDedup (S "analyze revenue trends")
      ≠ extract_job_keywords (fun l => (firstDedup l).reverse)
          (S "analyze revenue trends")
    ∧ (extract_job_keywords firstDedup (S "analyze revenue trends")).Perm
        (extract_job_keywords (fun l => (firstDedup l).reverse)
          (S "analyze revenue trends")) := by
  constructor
  · decide
  · decide

/-- C6 witness: the amended theorem applied to the first-seen enumeration
and its reverse at concrete persona and job strings. -/
theorem set_order_determinism_witness :
    (extract_job_keywords firstDedup (S "analyze revenue trends")).Perm
      (extract_job_keywords (fun l => (firstDedup l).reverse)
        (S "analyze revenue trends")) :=
  (set_order_determinism firstDedup (fun l => (firstDedup l).reverse)
      (fun _ => List.Perm.refl _) (fun _ => List.reverse_perm _)
      (S "Investment Analyst") (S "analyze revenue trends") (S "analysis")
      (S "general")).1

end DocIntel
